import Mathlib

/-
Verification of the grillo audio modem protocol layer (src/grillo/modem.py):
a shallow embedding of the packet codec, the single-packet receiver, the
chained-message reassembler and the transport controller's send/receive
logic, followed by theorems settling the behavioural claims.

Bytes are modelled as Nat, byte strings as List Nat, Python dicts with
Nat keys as association lists with unique keys (insertion order kept, as
Python dicts do), and Python exceptions as an explicit error type carried
in Except. A receive timeout (receive_packet returning None) is modelled
as the Option value none.
-/

namespace Grillo

/-- Python exceptions that the modem code can raise, including the generic
runtime errors TypeError (subscripting None), IndexError (subscripting an
empty bytes) and KeyError (missing dict key). -/
inductive PyExc where
  | messageTooLong
  | messagePartsLost
  | messageAckIsBroken
  | typeError
  | indexError
  | keyError (k : Nat)
  deriving DecidableEq, Repr

/-- Modem.DATA_LEN from the source. -/
def DATA_LEN : Nat := 30

/-- Modem._get_chain_len: `size // DATA_LEN + 1`. -/
def getChainLen (size : Nat) : Nat := size / DATA_LEN + 1

/-- The packet built inside Modem._send_packets for index i:
`bytes([chain_len, i]) + message[DATA_LEN * i : DATA_LEN * (i + 1)]`. -/
def encodePacket (chainLen i : Nat) (message : List Nat) : List Nat :=
  chainLen :: i :: (message.drop (DATA_LEN * i)).take DATA_LEN

/-- Modem._send_packets: the list of packets sent, one for each index in
packet_list, in order. -/
def sendPackets (message : List Nat) (packetList : List Nat) (chainLen : Nat) :
    List (List Nat) :=
  packetList.map (fun i => encodePacket chainLen i message)

/-- Modem._get_packets_to_retry, as a function of the ack payload returned by
receive_packet(5): none models a timeout (receive_packet returned None), and
`None[0]` is a TypeError; an empty payload makes `ack_msg[0]` an IndexError;
header 0 returns `ack_msg[1:]`; any other header raises MessageAckIsBroken. -/
def getPacketsToRetry (ackMsg : Option (List Nat)) : Except PyExc (List Nat) :=
  match ackMsg with
  | none => .error .typeError
  | some [] => .error .indexError
  | some (header :: rest) =>
      if header = 0 then .ok rest else .error .messageAckIsBroken

/-- Outcome of a send: the trace of packets handed to the link, in order, and
the exception raised, if any. -/
structure SendResult where
  sent : List (List Nat)
  err : Option PyExc
  deriving DecidableEq, Repr

/-- The while-loop of Modem.send_message. The environment's successive
answers to receive_packet(5) are given as the list `acks`; once the list is
exhausted every further receive times out (yields none). Each iteration with
a non-empty packets_to_send list sends those packets, and in confirmation
mode then asks _get_packets_to_retry for the next iteration's list. -/
def sendLoop (message : List Nat) (chainLen : Nat) (withConf : Bool) :
    List (Option (List Nat)) → List Nat → SendResult
  | [], pts =>
      if pts = [] then ⟨[], none⟩
      else
        let sentNow := sendPackets message pts chainLen
        if withConf then
          match getPacketsToRetry none with
          | .error e => ⟨sentNow, some e⟩
          | .ok _ => ⟨sentNow, none⟩
        else ⟨sentNow, none⟩
  | a :: restAcks, pts =>
      if pts = [] then ⟨[], none⟩
      else
        let sentNow := sendPackets message pts chainLen
        if withConf then
          match getPacketsToRetry a with
          | .error e => ⟨sentNow, some e⟩
          | .ok next =>
              let r := sendLoop message chainLen withConf restAcks next
              ⟨sentNow ++ r.sent, r.err⟩
        else ⟨sentNow, none⟩

/-- Modem.send_message: compute the chain length, reject the message if it
exceeds 255, otherwise run the send loop starting from range(chain_len). -/
def sendMessage (message : List Nat) (withConf : Bool)
    (acks : List (Option (List Nat))) : SendResult :=
  let chainLen := getChainLen message.length
  if chainLen > 255 then ⟨[], some .messageTooLong⟩
  else sendLoop message chainLen withConf acks (List.range chainLen)

/-- State of a SinglePacketReceiver, together with the list of payloads the
optional callback has been invoked with. -/
structure SingleState where
  packet : Option (List Nat)
  callbackCalls : List (Option (List Nat))
  deriving DecidableEq, Repr

/-- SinglePacketReceiver.__init__. -/
def initSingle : SingleState := ⟨none, []⟩

/-- SinglePacketReceiver.on_received: stores the payload in self.packet
(unconditionally) and, when a callback is configured, invokes it with the
payload. -/
def singleOnReceived (hasCallback : Bool) (s : SingleState)
    (payload : Option (List Nat)) : SingleState :=
  { packet := payload
    callbackCalls :=
      if hasCallback then s.callbackCalls ++ [payload] else s.callbackCalls }

/-- State of a ChainedMessageReceiver: the fields message, total_parts and
parts set by reset_status and mutated by on_received. -/
structure ChainedState where
  message : Option (List Nat)
  totalParts : Option Nat
  parts : List (Nat × List Nat)
  deriving DecidableEq, Repr

/-- ChainedMessageReceiver.reset_status: message = None, total_parts = None,
parts = \x7b\x7d. -/
def initChained : ChainedState := ⟨none, none, []⟩

/-- Python dict assignment `d[k] = v`: replace the value at an existing key
in place, else append the new binding. -/
def dictInsert (d : List (Nat × List Nat)) (k : Nat) (v : List Nat) :
    List (Nat × List Nat) :=
  if d.any (fun p => p.1 = k) then
    d.map (fun p => if p.1 = k then (k, v) else p)
  else d ++ [(k, v)]

/-- Python dict lookup `d[k]` as an Option (none models KeyError). -/
def dictGet (d : List (Nat × List Nat)) (k : Nat) : Option (List Nat) :=
  (d.find? (fun p => p.1 = k)).map Prod.snd

/-- ChainedMessageReceiver.finished: `len(self.parts.keys()) == self.total_parts`.
When total_parts is still None the Python comparison int == None is False. -/
def finished (s : ChainedState) : Bool :=
  match s.totalParts with
  | none => false
  | some t => s.parts.length = t

/-- The generator inside ChainedMessageReceiver.combine: look up
`self.parts[part_number]` for each index of the given list in order,
raising KeyError at the first missing one, and concatenate the fragments. -/
def combineAux (d : List (Nat × List Nat)) : List Nat → Except PyExc (List Nat)
  | [] => .ok []
  | i :: rest =>
      match dictGet d i with
      | none => .error (.keyError i)
      | some frag =>
          match combineAux d rest with
          | .error e => .error e
          | .ok tl => .ok (frag ++ tl)

/-- ChainedMessageReceiver.combine: concatenate `self.parts[i]` for i in
`range(self.total_parts)`. -/
def combine (d : List (Nat × List Nat)) (total : Nat) : Except PyExc (List Nat) :=
  combineAux d (List.range total)

/-- ChainedMessageReceiver.on_received: a None payload is ignored; otherwise
read total_parts = payload[0] and part_number = payload[1] (an IndexError on
payloads shorter than 2), keep the first-seen total_parts, store the fragment
at parts[part_number], and when finished combine the parts into message,
resetting the state afterwards when reset_on_message is set. -/
def onReceived (resetOnMessage : Bool) (s : ChainedState)
    (payload : Option (List Nat)) : Except PyExc ChainedState :=
  match payload with
  | none => .ok s
  | some [] => .error .indexError
  | some [_] => .error .indexError
  | some (tp :: pn :: rest) =>
      let t := match s.totalParts with | none => tp | some t0 => t0
      let s1 : ChainedState :=
        { message := s.message, totalParts := some t,
          parts := dictInsert s.parts pn rest }
      if finished s1 then
        match combine s1.parts t with
        | .error e => .error e
        | .ok msg =>
            if resetOnMessage then .ok initChained
            else .ok { s1 with message := some msg }
      else .ok s1

/-- Does an Except value carry the MessagePartsLostException? -/
def isPartsLostErr : Except PyExc (List Nat) → Bool
  | .error .messagePartsLost => true
  | _ => false

/-- Concatenating the consecutive DATA_LEN-sized chunks of a list, as long as
there are enough chunks to cover its length, rebuilds the list. -/
theorem flatten_chunks :
    ∀ (n : Nat) (l : List Nat), l.length ≤ DATA_LEN * n →
      ((List.range n).map (fun i => (l.drop (DATA_LEN * i)).take DATA_LEN)).flatten = l := by
  intro n
  induction n with
  | zero =>
      intro l hl
      simp only [Nat.mul_zero, Nat.le_zero, List.length_eq_zero] at hl
      simp [hl]
  | succ n ih =>
      intro l hl
      rw [List.range_succ_eq_map, List.map_cons, List.flatten_cons, List.map_map]
      have hcongr :
          ((fun i => (l.drop (DATA_LEN * i)).take DATA_LEN) ∘ Nat.succ) =
            fun i => ((l.drop DATA_LEN).drop (DATA_LEN * i)).take DATA_LEN := by
        funext i
        simp only [Function.comp_apply, List.drop_drop]
        rw [Nat.mul_succ, Nat.add_comm]
      rw [hcongr, ih (l.drop DATA_LEN)
        (by rw [List.length_drop]; simp only [DATA_LEN] at hl ⊢; omega)]
      rw [Nat.mul_zero, List.drop_zero, List.take_append_drop]

/-- Looking up a key that occurs in an index list inside the association list
pairing each index with a computed fragment returns that key's fragment. -/
theorem dictGet_pairs (g : Nat → List Nat) (k : Nat) :
    ∀ (is : List Nat), k ∈ is →
      dictGet (is.map (fun i => (i, g i))) k = some (g k) := by
  intro is
  induction is with
  | nil => simp
  | cons j rest ih =>
      intro hk
      by_cases hjk : j = k
      · subst hjk
        simp [dictGet, List.find?_cons]
      · have hmem : k ∈ rest := by
          rcases List.mem_cons.mp hk with h | h
          · exact absurd h.symm hjk
          · exact h
        have := ih hmem
        simpa [dictGet, List.find?_cons, hjk] using this

/-- When every index of the list has a stored fragment, the combine generator
succeeds and returns the in-order concatenation of those fragments. -/
theorem combineAux_lookup (d : List (Nat × List Nat)) (g : Nat → List Nat) :
    ∀ (is : List Nat), (∀ i ∈ is, dictGet d i = some (g i)) →
      combineAux d is = .ok (is.map g).flatten := by
  intro is
  induction is with
  | nil => intro _; rfl
  | cons i rest ih =>
      intro h
      simp only [combineAux]
      rw [h i (List.mem_cons_self _ _),
        ih (fun j hj => h j (List.mem_cons_of_mem _ hj))]
      simp

/-- C2: splitting a non-empty message of at most 255 * DATA_LEN bytes into the
slices that _send_packets transmits (fragment i is
message[DATA_LEN * i : DATA_LEN * (i + 1)]), storing them keyed by their
indices, and combining them in ascending index order via the reassembler's
combine reproduces the message exactly. -/
theorem split_combine_roundtrip (m : List Nat) (_h1 : 0 < m.length)
    (_h2 : m.length ≤ 255 * DATA_LEN) :
    combine ((List.range (getChainLen m.length)).map
        (fun i => (i, (m.drop (DATA_LEN * i)).take DATA_LEN)))
      (getChainLen m.length) = .ok m := by
  have hbound : m.length ≤ DATA_LEN * getChainLen m.length := by
    simp only [getChainLen, DATA_LEN]
    omega
  rw [combine,
    combineAux_lookup _ (fun i => (m.drop (DATA_LEN * i)).take DATA_LEN)
      (List.range (getChainLen m.length))
      (fun i hi =>
        dictGet_pairs (fun j => (m.drop (DATA_LEN * j)).take DATA_LEN) i
          (List.range (getChainLen m.length)) hi),
    flatten_chunks (getChainLen m.length) m hbound]

/-- Witness for split_combine_roundtrip at the concrete message [1, 2, 3]. -/
theorem split_combine_roundtrip_witness :
    0 < ([1, 2, 3] : List Nat).length ∧
    ([1, 2, 3] : List Nat).length ≤ 255 * DATA_LEN ∧
    combine ((List.range (getChainLen ([1, 2, 3] : List Nat).length)).map
        (fun i => (i, (([1, 2, 3] : List Nat).drop (DATA_LEN * i)).take DATA_LEN)))
      (getChainLen ([1, 2, 3] : List Nat).length) = .ok [1, 2, 3] :=
  ⟨by decide, by decide, split_combine_roundtrip [1, 2, 3] (by decide) (by decide)⟩

/-- C1: the source formula `size // DATA_LEN + 1` agrees with ceiling division
at 65 bytes (3 packets) but yields 3 rather than the ceiling value 2 at the
exact multiple 60, so the chain length is not exact ceiling division. -/
theorem chain_len_not_ceiling :
    getChainLen 65 = 3 ∧ getChainLen 60 = 3 ∧
    (65 + DATA_LEN - 1) / DATA_LEN = 3 ∧ (60 + DATA_LEN - 1) / DATA_LEN = 2 := by
  decide

/-- C3: a message longer than 255 * DATA_LEN bytes is rejected with
MessageTooLongException before anything is sent: the trace of packets handed
to the link is empty, in both confirmation modes and for every ack
environment. -/
theorem sendMessage_too_long (m : List Nat) (wc : Bool)
    (acks : List (Option (List Nat))) (h : m.length > 255 * DATA_LEN) :
    sendMessage m wc acks = ⟨[], some PyExc.messageTooLong⟩ := by
  have hcl : getChainLen m.length > 255 := by
    simp only [getChainLen, DATA_LEN] at *
    omega
  simp [sendMessage, hcl]

/-- Witness for sendMessage_too_long at a concrete 7651-byte message. -/
theorem sendMessage_too_long_witness :
    (List.replicate 7651 0).length > 255 * DATA_LEN ∧
    sendMessage (List.replicate 7651 0) true [] = ⟨[], some PyExc.messageTooLong⟩ :=
  ⟨by rw [List.length_replicate]; norm_num [DATA_LEN],
    sendMessage_too_long _ true [] (by rw [List.length_replicate]; norm_num [DATA_LEN])⟩

/-- C4: when no ack arrives within the timeout, receive_packet returns None
and _get_packets_to_retry evaluates `None[0]`, raising a TypeError instead of
returning an empty retry list; a confirmation-mode send whose ack wait times
out therefore raises after sending its packets rather than returning
normally. -/
theorem ack_timeout_raises :
    getPacketsToRetry none = Except.error PyExc.typeError ∧
    sendMessage [1, 2, 3] true [] = ⟨[[1, 0, 1, 2, 3]], some PyExc.typeError⟩ := by
  exact ⟨rfl, rfl⟩

/-- C7: combine on a state where index 0 of the 2 expected parts is missing
raises KeyError 0 (the dict lookup fails), and combine can never raise
MessagePartsLostException: that exception is defined in the source but never
raised by it. -/
theorem combine_raises_key_error :
    combine [(5, [9]), (7, [8])] 2 = Except.error (PyExc.keyError 0) ∧
    ∀ d t, isPartsLostErr (combine d t) = false := by
  constructor
  · rfl
  · intro d t
    show isPartsLostErr (combineAux d (List.range t)) = false
    induction List.range t with
    | nil => rfl
    | cons i rest ih =>
        simp only [combineAux]
        cases hg : dictGet d i with
        | none => rfl
        | some frag =>
            cases hc : combineAux d rest with
            | error e => rw [hc] at ih; exact ih
            | ok tl => rfl

/-- C8 counterexample: a second on_received on the same SinglePacketReceiver
overwrites the stored packet, so after payloads [1] then [2] the stored
packet is [2], not the first capture [1]. -/
theorem single_second_overwrites :
    ((singleOnReceived true (singleOnReceived true initSingle (some [1]))
        (some [2])).packet == some [1]) = false ∧
    (singleOnReceived true (singleOnReceived true initSingle (some [1]))
        (some [2])).packet = some [2] := by
  decide

/-- C8 amended: every on_received stores its payload, overwriting whatever
was stored before (the last notification wins), and when a callback is
configured each notification invokes it with the payload. -/
theorem single_on_received_spec (hc : Bool) (s : SingleState)
    (p : Option (List Nat)) :
    (singleOnReceived hc s p).packet = p ∧
    (singleOnReceived true s p).callbackCalls = s.callbackCalls ++ [p] := by
  exact ⟨rfl, rfl⟩

/-- C9 counterexample: an empty (but present) payload is not ignored by the
reassembler: reading `payload[0]` raises an IndexError. -/
theorem empty_payload_raises :
    onReceived false initChained (some []) = Except.error PyExc.indexError := by
  rfl

/-- C9 amended: an absent payload (None) is ignored with no state change and
no error; an empty payload instead raises an IndexError, the error occurring
before any field of the state is written. -/
theorem on_received_empty_or_absent (ros : Bool) (s : ChainedState) :
    onReceived ros s none = Except.ok s ∧
    onReceived ros s (some []) = Except.error PyExc.indexError := by
  exact ⟨rfl, rfl⟩

/-- C5: when a non-empty packet set has just been sent in confirmation mode
and the ack has header 0 listing missing indices l, the loop continues
exactly as a fresh loop over l: it retransmits precisely the fragments at
those indices with the same encoding (sendPackets maps each listed index to
encodePacket of the same chain length, index and slice) and then waits for
the next ack; and when the next ack lists nothing missing, the loop stops
after the retransmission with no error. In particular an ack listing [2, 5]
followed by an empty-list ack retransmits exactly packets 2 and 5. -/
theorem retry_exactly_missing (m : List Nat) (cl : Nat) (l : List Nat)
    (rest : List (Option (List Nat))) (pts : List Nat) (h : pts ≠ []) :
    sendLoop m cl true (some (0 :: l) :: rest) pts =
      ⟨sendPackets m pts cl ++ (sendLoop m cl true rest l).sent,
        (sendLoop m cl true rest l).err⟩ ∧
    sendPackets m l cl = l.map (fun i => encodePacket cl i m) ∧
    sendLoop m cl true [some (0 :: [2, 5]), some [0]] pts =
      ⟨sendPackets m pts cl ++ [encodePacket cl 2 m, encodePacket cl 5 m], none⟩ := by
  refine ⟨?_, rfl, ?_⟩
  · simp [sendLoop, h, getPacketsToRetry]
  · simp [sendLoop, h, getPacketsToRetry, sendPackets]

/-- Witness for retry_exactly_missing at concrete inputs. -/
theorem retry_exactly_missing_witness :
    ([0] : List Nat) ≠ [] ∧
    (sendLoop [9] 1 true (some (0 :: [2]) :: []) [0] =
        ⟨sendPackets [9] [0] 1 ++ (sendLoop [9] 1 true [] [2]).sent,
          (sendLoop [9] 1 true [] [2]).err⟩ ∧
      sendPackets [9] [2] 1 = [2].map (fun i => encodePacket 1 i [9]) ∧
      sendLoop [9] 1 true [some (0 :: [2, 5]), some [0]] [0] =
        ⟨sendPackets [9] [0] 1 ++ [encodePacket 1 2 [9], encodePacket 1 5 [9]],
          none⟩) :=
  ⟨by decide, retry_exactly_missing [9] 1 [2] [] [0] (by decide)⟩

/-- C6 counterexample: feeding the fresh reassembler a first fragment with
declared chain length 2 but part number 5, then a second with part number 7,
is a reachable run in which finished() becomes true (two distinct keys equal
the declared total of 2) while index 0 is missing, so the subsequent combine
fails with KeyError rather than being unreachable. -/
theorem finished_with_missing_index :
    onReceived false initChained (some [2, 5, 9]) =
      Except.ok ⟨none, some 2, [(5, [9])]⟩ ∧
    finished ⟨none, some 2, [(5, [9]), (7, [8])]⟩ = true ∧
    dictGet [(5, [9]), (7, [8])] 0 = none ∧
    onReceived false ⟨none, some 2, [(5, [9])]⟩ (some [2, 7, 8]) =
      Except.error (PyExc.keyError 0) := by
  exact ⟨rfl, rfl, rfl, rfl⟩

/-- C6 amended: in any reassembler state whose stored part indices are
distinct and all below the declared total (as holds whenever every received
part number is in range), finished() = true does imply that every index in
0..total_parts-1 is present, so combine meets no missing in-range index. -/
theorem finished_implies_all_present (s : ChainedState) (t : Nat)
    (ht : s.totalParts = some t)
    (hnd : (s.parts.map Prod.fst).Nodup)
    (hlt : ∀ k ∈ s.parts.map Prod.fst, k < t)
    (hfin : finished s = true) :
    ∀ i, i < t → (dictGet s.parts i).isSome = true := by
  intro i hi
  have hlen : s.parts.length = t := by
    simpa [finished, ht] using hfin
  have hcard : (s.parts.map Prod.fst).toFinset.card = t := by
    rw [List.toFinset_card_of_nodup hnd, List.length_map]
    exact hlen
  have hsub : (s.parts.map Prod.fst).toFinset ⊆ Finset.range t := by
    intro k hk
    rw [List.mem_toFinset] at hk
    exact Finset.mem_range.mpr (hlt k hk)
  have heq : (s.parts.map Prod.fst).toFinset = Finset.range t :=
    Finset.eq_of_subset_of_card_le hsub (by rw [hcard, Finset.card_range])
  have hmem : i ∈ s.parts.map Prod.fst := by
    rw [← List.mem_toFinset, heq]
    exact Finset.mem_range.mpr hi
  obtain ⟨q, hq, hqi⟩ := List.mem_map.mp hmem
  have hfind : (s.parts.find? (fun p => p.1 = i)).isSome = true := by
    rw [List.find?_isSome]
    exact ⟨q, hq, by simp [hqi]⟩
  rw [dictGet, Option.isSome_map']
  exact hfind

/-- Witness for finished_implies_all_present at a concrete complete state. -/
theorem finished_implies_all_present_witness :
    (⟨none, some 2, [(0, [1]), (1, [2])]⟩ : ChainedState).totalParts = some 2 ∧
    ((⟨none, some 2, [(0, [1]), (1, [2])]⟩ : ChainedState).parts.map
      Prod.fst).Nodup ∧
    (∀ k ∈ (⟨none, some 2, [(0, [1]), (1, [2])]⟩ : ChainedState).parts.map
      Prod.fst, k < 2) ∧
    finished ⟨none, some 2, [(0, [1]), (1, [2])]⟩ = true ∧
    (dictGet (⟨none, some 2, [(0, [1]), (1, [2])]⟩ : ChainedState).parts
      0).isSome = true ∧
    (dictGet (⟨none, some 2, [(0, [1]), (1, [2])]⟩ : ChainedState).parts
      1).isSome = true :=
  ⟨rfl, by decide, by decide, rfl,
    finished_implies_all_present ⟨none, some 2, [(0, [1]), (1, [2])]⟩ 2 rfl
      (by decide) (by decide) rfl 0 (by decide),
    finished_implies_all_present ⟨none, some 2, [(0, [1]), (1, [2])]⟩ 2 rfl
      (by decide) (by decide) rfl 1 (by decide)⟩

/-- C10: once total_parts is set to some t, any successful on_received either
leaves it equal to t (in particular every notification before the message
completes) or, only in continuous mode, resets the whole state for a new
message after completion; moreover the chain length declared by a later
fragment is ignored: two payloads differing only in their declared chain
length byte produce identical results. -/
theorem total_parts_stable (ros : Bool) (s : ChainedState) (t : Nat)
    (p : List Nat) (s' : ChainedState) (ht : s.totalParts = some t)
    (h : onReceived ros s (some p) = Except.ok s') :
    (s'.totalParts = some t ∨ (ros = true ∧ s' = initChained)) ∧
    ∀ a b pn rest, onReceived ros s (some (a :: pn :: rest)) =
      onReceived ros s (some (b :: pn :: rest)) := by
  constructor
  · match p with
    | [] => simp [onReceived] at h
    | [_] => simp [onReceived] at h
    | tp :: pn :: rest =>
        simp only [onReceived, ht] at h
        split at h
        · split at h
          · simp at h
          · split at h
            · right
              exact ⟨‹ros = true›, (Except.ok.inj h).symm⟩
            · left
              rw [← Except.ok.inj h]
        · left
          rw [← Except.ok.inj h]
  · intro a b pn rest
    simp only [onReceived, ht]

/-- Witness for total_parts_stable at a concrete completing notification. -/
theorem total_parts_stable_witness :
    (⟨none, some 2, [(0, [1])]⟩ : ChainedState).totalParts = some 2 ∧
    onReceived false ⟨none, some 2, [(0, [1])]⟩ (some [9, 1, 2]) =
      Except.ok ⟨some [1, 2], some 2, [(0, [1]), (1, [2])]⟩ ∧
    ((⟨some [1, 2], some 2, [(0, [1]), (1, [2])]⟩ : ChainedState).totalParts
        = some 2 ∨
      (false = true ∧
        (⟨some [1, 2], some 2, [(0, [1]), (1, [2])]⟩ : ChainedState)
          = initChained)) ∧
    onReceived false (⟨none, some 2, [(0, [1])]⟩ : ChainedState)
        (some (3 :: 1 :: [2])) =
      onReceived false ⟨none, some 2, [(0, [1])]⟩ (some (7 :: 1 :: [2])) :=
  ⟨rfl, rfl,
    (total_parts_stable false ⟨none, some 2, [(0, [1])]⟩ 2 [9, 1, 2]
      ⟨some [1, 2], some 2, [(0, [1]), (1, [2])]⟩ rfl rfl).1,
    (total_parts_stable false ⟨none, some 2, [(0, [1])]⟩ 2 [9, 1, 2]
      ⟨some [1, 2], some 2, [(0, [1]), (1, [2])]⟩ rfl rfl).2 3 7 1 [2]⟩

end Grillo
